import Mathlib

/-!
Verification of the PII anonymization core
(`anonymizer-micro-service/anonymizer_api/anonymizer.py`).

Texts are modelled as `List Char` (Python strings are sequences of code
points, and Python slices `t[a:b]` clamp out-of-range bounds exactly like
`(t.drop a).take (b - a)` on lists).

The `regex` patterns of the source are embedded as abstract syntax trees
(`RE`) and executed by a backtracking matcher that reproduces the
leftmost / greedy / ordered-alternation semantics of Python's backtracking
engine, including word-boundary assertions and counted repetition.
Character-class predicates cover the ASCII and Latin-1 fragment actually
exercised by the French patterns of the source; exotic Unicode categories
(e.g. non-Latin decimal digits) are outside the model and are noted at the
definitions they would affect.

Fallible Python operations (`int(...)`, which raises `ValueError` on a
non-numeric string) are modelled with `Option`: `none` means the Python
code raises to its caller.
-/

/-! ### Character helpers -/

/-- Python `str.isdigit` restricted to the decimal ASCII digits `0`-`9`.
(Python also accepts further Unicode digit characters; the source's
patterns use them nowhere relevant and they are outside the model.) -/
def pyIsDigitChar (c : Char) : Bool := c.isDigit

/-- Python regex `\s` on the ASCII whitespace characters. -/
def wsChar (c : Char) : Bool :=
  c == ' ' || c == '\t' || c == '\n' || c == '\x0b' || c == '\x0c' || c == '\r'

/-- A word character for the `\b` assertion: ASCII alphanumerics,
underscore, and the Latin-1 letters (used by the French accented text). -/
def wordChar (c : Char) : Bool :=
  c.isAlphanum || c == '_' ||
    (0xC0 ≤ c.toNat && c.toNat ≤ 0xFF && c.toNat != 0xD7 && c.toNat != 0xF7)

/-- Case folding for `regex.IGNORECASE`: ASCII `A`-`Z` and the Latin-1
uppercase letters are mapped to their lowercase forms. -/
def ciLower (c : Char) : Char :=
  if 'A' ≤ c && c ≤ 'Z' then Char.ofNat (c.toNat + 32)
  else if 0xC0 ≤ c.toNat && c.toNat ≤ 0xDE && c.toNat != 0xD7 then
    Char.ofNat (c.toNat + 32)
  else c

/-- Python `str.upper` on the ASCII / Latin-1 letters. -/
def pyUpper (c : Char) : Char :=
  if 'a' ≤ c && c ≤ 'z' then Char.ofNat (c.toNat - 32)
  else if 0xE0 ≤ c.toNat && c.toNat ≤ 0xFE && c.toNat != 0xF7 then
    Char.ofNat (c.toNat - 32)
  else c

/-! ### A small regex engine

The patterns of the source (`anonymizer.py`, section 3) use character
classes, concatenation, ordered alternation, greedy counted repetition
(`?`, `+`, `{m}`, `{m,n}`) and the word-boundary assertion `\b`.  The
matcher below returns, for a pattern and a starting offset, the list of
all candidate end offsets in the backtracking engine's preference order
(greedy repetition first, left alternative first); the head of that list
is the match Python's engine reports. -/

/-- Regex abstract syntax: character class, empty pattern, concatenation,
ordered alternation, word boundary, and greedy repetition with a lower
bound and an optional upper bound (`none` = unbounded, as in `+`). -/
inductive RE where
  | cls (p : Char → Bool)
  | eps
  | seq (a b : RE)
  | alt (a b : RE)
  | wordB
  | rep (a : RE) (lo : Nat) (hi : Option Nat)

/-- True when position `pos` of `s` is a `\b` word boundary: the
word-character status of the previous character (absent = non-word)
differs from that of the current one. -/
def isBoundary (s : List Char) (pos : Nat) : Bool :=
  let before := if pos = 0 then false else
    match s[pos - 1]? with | some c => wordChar c | none => false
  let after := match s[pos]? with | some c => wordChar c | none => false
  before != after

/-- Greedy repetition driver: `repIter f lo hi pos` matches between `lo`
and `hi` further iterations of the sub-pattern (whose matcher is `f`)
starting at `pos`, returning candidate end positions greedily (more
iterations preferred). -/
def repIter (f : Nat → List Nat) : Nat → Nat → Nat → List Nat
  | lo, 0, pos => if lo = 0 then [pos] else []
  | 0, hi + 1, pos => ((f pos).flatMap (repIter f 0 hi)) ++ [pos]
  | lo + 1, hi + 1, pos => (f pos).flatMap (repIter f lo hi)

/-- The backtracking matcher: all candidate end positions of `re` at
`pos` in `s`, in preference order.  For an unbounded repetition the
iteration count is capped at `lo + s.length + 1`; every unbounded
repetition in the source's patterns consumes at least one character per
iteration, so the cap is never reached by a successful parse. -/
def matchRE (s : List Char) : RE → Nat → List Nat
  | .cls p, pos =>
    match s[pos]? with
    | some c => if p c then [pos + 1] else []
    | none => []
  | .eps, pos => [pos]
  | .seq a b, pos => (matchRE s a pos).flatMap (matchRE s b)
  | .alt a b, pos => matchRE s a pos ++ matchRE s b pos
  | .wordB, pos => if isBoundary s pos then [pos] else []
  | .rep a lo hi, pos =>
    repIter (matchRE s a) lo (hi.getD (lo + s.length + 1)) pos

/-- Scanning driver of `pattern.finditer(text)`: repeatedly find the
leftmost match at or after the scan position, report its span, and resume
scanning at its end (non-overlapping matches). -/
def findIterGo (re : RE) (s : List Char) : Nat → Nat → List (Nat × Nat)
  | 0, _ => []
  | fuel + 1, pos =>
    if pos > s.length then []
    else
      match (matchRE s re pos).head? with
      | some e => (pos, e) :: findIterGo re s fuel (max e (pos + 1))
      | none => findIterGo re s fuel (pos + 1)

/-- All non-overlapping matches of `re` in `s`, as `(start, end)` spans,
in left-to-right order — the spans `pattern.finditer(text)` yields. -/
def findIter (re : RE) (s : List Char) : List (Nat × Nat) :=
  findIterGo re s (s.length + 1) 0

/-! Convenience constructors for the patterns. -/

/-- A literal (case-sensitive) character. -/
def chr (c : Char) : RE := .cls (fun x => x == c)

/-- A literal character under `regex.IGNORECASE`. -/
def chrCI (c : Char) : RE := .cls (fun x => ciLower x == ciLower c)

/-- Concatenation of a list of patterns. -/
def seqs (l : List RE) : RE := l.foldr .seq .eps

/-- A case-insensitive literal word. -/
def litCI (w : List Char) : RE := seqs (w.map chrCI)

/-- Exactly `n` repetitions (`{n}`). -/
def repN (a : RE) (n : Nat) : RE := .rep a n (some n)

/-- Between `lo` and `hi` repetitions (`{lo,hi}`). -/
def repRange (a : RE) (lo hi : Nat) : RE := .rep a lo (some hi)

/-- One or more repetitions (`+`). -/
def plus (a : RE) : RE := .rep a 1 none

/-- Zero or one repetition (`?`). -/
def opt (a : RE) : RE := .rep a 0 (some 1)

/-- Python slice `text[a:b]` (for non-negative bounds): clamps both ends
to the text, empty when `b ≤ a`. -/
def sliceL (t : List Char) (a b : Nat) : List Char := (t.drop a).take (b - a)

/-- Python slice `text[-n:]` for `n > 0`: the last `n` elements (the whole
list when it is shorter than `n`). -/
def lastN (n : Nat) (t : List Char) : List Char := t.drop (t.length - n)

/-! ### Validation algorithms (`anonymizer.py`, section 2) -/

/-- `_strip`: remove the characters matched by `[\s-]` (whitespace and
dashes) from an identifier. -/
def strip (s : List Char) : List Char := s.filter (fun c => !(wsChar c || c == '-'))

/-- `_alpha_to_num` / `_iban_to_numeric`: a letter `A`..`Z` becomes the
decimal digits of its value 10..35, every other character is kept. -/
def alphaToNum (c : Char) : List Char :=
  if 'A' ≤ c && c ≤ 'Z' then (Nat.toDigits 10 (c.toNat - 55)) else [c]

/-- `_iban_to_numeric`: concatenate the per-character mapping. -/
def ibanToNumeric (s : List Char) : List Char := s.flatMap alphaToNum

/-- Continuation of the digit-run recognizer: digits with single
underscores allowed strictly between digits. -/
def udigGo : List Char → Bool
  | [] => true
  | c :: rest =>
    if c = '_' then
      match rest with
      | [] => false
      | d :: rest2 => d.isDigit && udigGo rest2
    else c.isDigit && udigGo rest

/-- Digit-run recognizer for Python `int(...)`: one or more ASCII decimal
digits with single underscores allowed strictly between digits. -/
def udig : List Char → Bool
  | [] => false
  | c :: rest => c.isDigit && udigGo rest

/-- Numeric value of a digit string (underscores skipped). -/
def digitsVal (s : List Char) : Nat :=
  (s.filter Char.isDigit).foldl (fun a c => 10 * a + (c.toNat - 48)) 0

/-- Python `int(str)` on a separator-free string: an optional sign
followed by an underscore-grouped digit run yields its value, anything
else raises `ValueError` (`none`).  (The callers in the source strip
whitespace and dashes first; non-ASCII digit forms are outside the
model.) -/
def pyInt (s : List Char) : Option Int :=
  if s.head? = some '+' then
    (if udig s.tail then some (digitsVal s.tail) else none)
  else if s.head? = some '-' then
    (if udig s.tail then some (-(digitsVal s.tail : Int)) else none)
  else if udig s then some (digitsVal s) else none

/-- `_is_valid_iban`: strip separators, uppercase; reject unless the
result starts with `FR` and has exactly 27 characters; move the first 4
characters to the end, map letters to two-digit values, convert with
`int` and test `mod 97 == 1`.  `none` models the `ValueError` that
`int()` raises when a non-alphanumeric character survives to this
point. -/
def is_valid_iban (iban : List Char) : Option Bool :=
  let raw := (strip iban).map pyUpper
  if raw.take 2 ≠ ['F', 'R'] ∨ raw.length ≠ 27 then some false
  else
    match pyInt (ibanToNumeric (raw.drop 4 ++ raw.take 4)) with
    | some n => some (n % 97 == 1)
    | none => none

/-- The summand the Luhn loop adds for the digit `d` at index `i` of the
reversed digit list: doubled at odd indices, minus 9 when the double
exceeds 9. -/
def luhnStep (i d : Nat) : Nat :=
  if i % 2 = 1 then (if 2 * d > 9 then 2 * d - 9 else 2 * d) else d

/-- `_is_valid_luhn`: keep the digits, reverse, sum with `luhnStep`,
accept when the sum is divisible by 10.  Note the function has no length
or content check: non-digit characters are silently skipped. -/
def is_valid_luhn (number : List Char) : Bool :=
  let digits := ((number.filter pyIsDigitChar).map (fun c => c.toNat - 48)).reverse
  (digits.enum.foldl (fun acc p => acc + luhnStep p.1 p.2) 0) % 10 = 0

/-- Python `str.isdigit`: false on the empty string, true when every
character is a (modelled) digit. -/
def pyIsDigitStr (s : List Char) : Bool := !s.isEmpty && s.all pyIsDigitChar

/-- `_is_valid_nir`: strip separators; reject unless exactly 15 digits;
the last two digits are the declared key, the first 13 form `n`; accept
when `97 - n % 97` equals the key.  `none` models a `ValueError` from
`int` (unreachable here because the digit check precedes it). -/
def is_valid_nir (nir : List Char) : Option Bool :=
  let num := strip nir
  if num.length ≠ 15 ∨ pyIsDigitStr num = false then some false
  else
    match pyInt (lastN 2 num), pyInt (num.take (num.length - 2)) with
    | some key, some n => some (97 - n % 97 == key)
    | _, _ => none

/-! ### Masking transforms (`anonymizer.py`, section 3) -/

/-- `_mask_email`: split at the first `@`; a local part of length ≤ 2 is
fully masked, otherwise its first and last characters are kept with `*`
between; the domain is untouched.  (Python's tuple unpacking would raise
on an `@`-free string; the email pattern guarantees one `@`, and the model
is only exercised on such inputs.) -/
def mask_email (x : List Char) : List Char :=
  let loc := x.takeWhile (fun c => c ≠ '@')
  let domain := (x.drop loc.length).drop 1
  (if loc.length ≤ 2 then List.replicate loc.length '*'
   else loc.take 1 ++ List.replicate (loc.length - 2) '*' ++ lastN 1 loc) ++
    '@' :: domain

/-- `_mask_card`: strip separators, keep the last 4 digits, `*` for each
preceding digit. -/
def mask_card (x : List Char) : List Char :=
  let digits := strip x
  List.replicate (digits.length - 4) '*' ++ lastN 4 digits

/-- `_mask_phone`: strip separators, keep the last 2 digits, `X` for each
preceding one. -/
def mask_phone (x : List Char) : List Char :=
  let digits := strip x
  List.replicate (digits.length - 2) 'X' ++ lastN 2 digits

/-- `_mask_iban`: fixed `FR************` prefix plus the last 4 characters
of the stripped value. -/
def mask_iban (x : List Char) : List Char :=
  "FR************".toList ++ lastN 4 (strip x)

/-- `_mask_rib`: fixed 12-star prefix plus the last 4 characters of the
raw match. -/
def mask_rib (x : List Char) : List Char := "************".toList ++ lastN 4 x

/-- `_mask_date`: the external day-first date normalizer (dateutil) either
yields a year — masked as `XX/XX/{year}` — or fails, in which case the
generic `DATE` token is emitted.  The normalizer is an external
collaborator (spec section 6) and is passed in as `dtParse`. -/
def mask_date (dtParse : List Char → Option Int) (x : List Char) : List Char :=
  match dtParse x with
  | some year => "XX/XX/".toList ++ (toString year).toList
  | none => "DATE".toList

/-- `_mask_nir`: fixed 11-star prefix plus the last 4 characters. -/
def mask_nir (x : List Char) : List Char := "***********".toList ++ lastN 4 x

/-- `_mask_passport`: first 2 and last 2 characters kept, `*` between. -/
def mask_passport (x : List Char) : List Char :=
  x.take 2 ++ List.replicate (x.length - 4) '*' ++ lastN 2 x

/-- `_mask_license`: fixed token, original value discarded. -/
def mask_license (_ : List Char) : List Char := "PERMIS********".toList

/-! ### The regex patterns (`anonymizer.py`, section 3) -/

/-- ASCII decimal digit class, regex `\d` (ASCII fragment). -/
def digC : RE := .cls Char.isDigit

/-- Class `[0-9A-Za-z]`. -/
def alnumC : RE := .cls Char.isAlphanum

/-- Class `[A-Za-z]`, also `[A-Z]` under `IGNORECASE`. -/
def alphaC : RE := .cls Char.isAlpha

/-- Class `[\s]` / bare `\s`. -/
def wsC : RE := .cls wsChar

/-- `_email_pat`: `\b[A-Za-z0-9._%+-]+@[A-Za-z0-9.-]+\.[A-Za-z]{2,}\b`. -/
def email_pat : RE :=
  seqs [.wordB,
    plus (.cls (fun c => c.isAlphanum || c == '.' || c == '_' || c == '%' || c == '+' || c == '-')),
    chr '@',
    plus (.cls (fun c => c.isAlphanum || c == '.' || c == '-')),
    chr '.',
    .rep alphaC 2 none,
    .wordB]

/-- `_iban_pat`: `FR[0-9A-Za-z]{2}(?:[\s]?[0-9A-Za-z]{4}){5}[0-9A-Za-z]{1}`
(case-sensitive, no word boundaries). -/
def iban_pat : RE :=
  seqs [chr 'F', chr 'R', repN alnumC 2,
    repN (seqs [opt wsC, repN alnumC 4]) 5,
    repN alnumC 1]

/-- `_rib_pat`: `\b\d{5}\s?\d{5}\s?\d{11}\s?\d{2}\b`. -/
def rib_pat : RE :=
  seqs [.wordB, repN digC 5, opt wsC, repN digC 5, opt wsC,
    repN digC 11, opt wsC, repN digC 2, .wordB]

/-- `_card_pat`: `(?:\d[\s-]?){13,16}` (no word boundaries). -/
def card_pat : RE :=
  repRange (.seq digC (opt (.cls (fun c => wsChar c || c == '-')))) 13 16

/-- `_date_num_pat`: `\b\d{1,2}/\d{1,2}/\d{4}\b`. -/
def date_num_pat : RE :=
  seqs [.wordB, repRange digC 1 2, chr '/', repRange digC 1 2, chr '/',
    repN digC 4, .wordB]

/-- The ordered month alternation of `_months` (ordered choice, as in the
backtracking engine). -/
def months_alt : RE :=
  [litCI "janvier".toList, litCI "février".toList, litCI "mars".toList,
   litCI "avril".toList, litCI "mai".toList, litCI "juin".toList,
   litCI "juillet".toList, litCI "août".toList, litCI "septembre".toList,
   litCI "octobre".toList, litCI "novembre".toList].foldr .alt
    (litCI "décembre".toList)

/-- `_date_alpha_pat`: `\b\d{1,2} (?:months) \d{4}\b`, `IGNORECASE`. -/
def date_alpha_pat : RE :=
  seqs [.wordB, repRange digC 1 2, chr ' ', months_alt, chr ' ',
    repN digC 4, .wordB]

/-- `_nir_pat`: `\b[12]\d{2}\d{2}\d{2}\d{3}\d{3}\d{2}\b`. -/
def nir_pat : RE :=
  seqs [.wordB, .cls (fun c => c == '1' || c == '2'), repN digC 2,
    repN digC 2, repN digC 2, repN digC 3, repN digC 3, repN digC 2, .wordB]

/-- `_passport_pat`: `\b\d{2}[A-Z]{2}\d{5}\b`, `IGNORECASE` (so the letter
class accepts both cases). -/
def passport_pat : RE :=
  seqs [.wordB, repN digC 2, repN alphaC 2, repN digC 5, .wordB]

/-- `_permis_pat`: `\b\d{12}\b`. -/
def permis_pat : RE := seqs [.wordB, repN digC 12, .wordB]

/-- `_plate_pat`: `\b[A-Z]{2}-\d{3}-[A-Z]{2}\b`, `IGNORECASE`. -/
def plate_pat : RE :=
  seqs [.wordB, repN alphaC 2, chr '-', repN digC 3, chr '-',
    repN alphaC 2, .wordB]

/-- The uppercase class `[A-ZÉÈÀÂÊÎÔÛÇ]` of `_addr_pat` closed under
`IGNORECASE`. -/
def addrUpperC : RE :=
  .cls (fun c => c.isAlpha || "éèàâêîôûçÉÈÀÂÊÎÔÛÇ".toList.contains c)

/-- The tail class `[a-zà-ÿ\-\s]` of `_addr_pat` closed under
`IGNORECASE` (the code-point range `à`-`ÿ` plus the uppercase forms of
its letters). -/
def addrTailC : RE :=
  .cls (fun c => c.isAlpha || c == '-' || wsChar c ||
    (0xC0 ≤ c.toNat && c.toNat ≤ 0xFF && c.toNat != 0xD7) || c == 'Ÿ')

/-- `_addr_pat`:
`\b\d{1,4}\s+[^,\n]{2,80},?\s+\d{5}\s+[A-ZÉÈÀÂÊÎÔÛÇ][a-zà-ÿ\-\s]{2,50}\b`,
`IGNORECASE`. -/
def addr_pat : RE :=
  seqs [.wordB, repRange digC 1 4, plus wsC,
    repRange (.cls (fun c => c ≠ ',' && c ≠ '\n')) 2 80,
    opt (chr ','), plus wsC, repN digC 5, plus wsC,
    addrUpperC, repRange addrTailC 2 50, .wordB]

/-! ### Span collection (`anonymizer.py`, sections 4 and 5) -/

/-- `_Repl`: a half-open replacement span.  The source field `end` is a
reserved word in Lean and is named `stop` here. -/
structure Repl where
  start : Nat
  stop : Nat
  repl : List Char
deriving DecidableEq

/-- `_PATTERNS`: the ordered detector registry — `(pattern, masker,
optional validator)` triples, in the source's priority order.  The IBAN
and NIR validators are `Option Bool` valued (`none` = `ValueError`); as
established by the pattern shapes (alphanumeric-plus-space matches only),
the exception case is unreachable from `_gather_regex`, so acceptance is
`= some true`. -/
def PATTERNS (dtParse : List Char → Option Int) :
    List (RE × (List Char → List Char) × Option (List Char → Bool)) :=
  [(addr_pat, fun _ => "ADRESSE".toList, none),
   (iban_pat, mask_iban, some (fun m => is_valid_iban m == some true)),
   (rib_pat, mask_rib, none),
   (date_num_pat, mask_date dtParse, none),
   (date_alpha_pat, mask_date dtParse, none),
   (passport_pat, mask_passport, none),
   (permis_pat, mask_license, none),
   (plate_pat, fun _ => "IMMATRICULATION".toList, none),
   (card_pat, mask_card, some is_valid_luhn),
   (email_pat, mask_email, none),
   (nir_pat, mask_nir, some (fun m => is_valid_nir m == some true))]

/-- `_gather_regex`: for every rule in registry order, every
non-overlapping match of its pattern, validated when a validator is
present, contributes a replacement span carrying the masked text. -/
def gatherRegex (dtParse : List Char → Option Int) (text : List Char) : List Repl :=
  (PATTERNS dtParse).flatMap (fun rule =>
    (findIter rule.1 text).filterMap (fun se =>
      let g := sliceL text se.1 se.2
      if (match rule.2.2 with | some v => v g | none => true)
      then some ⟨se.1, se.2, rule.2.1 g⟩ else none))

/-- Insert a span into a list sorted by `start`, after any span with the
same start (so the overall sort is stable, like Python's `list.sort`). -/
def insortRepl (r : Repl) : List Repl → List Repl
  | [] => [r]
  | x :: xs => if r.start < x.start then r :: x :: xs else x :: insortRepl r xs

/-- `repls.sort(key=lambda r: r.start)`: a stable sort by start offset. -/
def sortRepls (l : List Repl) : List Repl := l.foldl (fun acc r => insortRepl r acc) []

/-- The cursor sweep of `_apply`: a span starting before the cursor is
discarded; an accepted span contributes the literal text from the cursor
to its start and then its replacement, moving the cursor to its end; the
remaining literal text follows the last accepted span. -/
def applyGo (text : List Char) : List Repl → Nat → List Char
  | [], cursor => text.drop cursor
  | r :: rs, cursor =>
    if r.start < cursor then applyGo text rs cursor
    else sliceL text cursor r.start ++ r.repl ++ applyGo text rs r.stop

/-- `_apply`: an empty replacement list returns the text itself;
otherwise sort by start (stably) and run the cursor sweep. -/
def applyRepls (text : List Char) (repls : List Repl) : List Char :=
  if repls.isEmpty then text else applyGo text (sortRepls repls) 0

/-! ### Public pipeline (`anonymizer.py`, section 6)

The phone-span provider and the person-entity provider are external
collaborators (spec section 6); they enter the model as functions from a
text to the replacement spans their adapters (`_gather_phones`,
`_gather_person`) produce for it. -/

/-- `anonymize_all`: regex spans, then phone spans, then person spans,
applied by `_apply`. -/
def anonymizeAll (dtParse : List Char → Option Int)
    (phones person : List Char → List Repl) (text : List Char) : List Char :=
  applyRepls text (gatherRegex dtParse text ++ phones text ++ person text)

/-- `anonymize_all_many`: per-text regex and phone collection, one
batched entity-provider call (modelled, per spec section 6, as yielding
for each text of the batch the same spans a single-text call would), then
a strict zip and per-text application. -/
def anonymizeAllMany (dtParse : List Char → Option Int)
    (phones person : List Char → List Repl) (texts : List (List Char)) :
    List (List Char) :=
  let regexB := texts.map (gatherRegex dtParse)
  let phoneB := texts.map phones
  let docs := texts.map person
  (texts.zip (regexB.zip (phoneB.zip docs))).map
    (fun p => applyRepls p.1 (p.2.1 ++ p.2.2.1 ++ p.2.2.2))

/-- `anonymize_all_many` with a fallible entity provider: the source has
no exception handler, so a provider failure while the batched call is
being consumed propagates and the whole batch call yields no result
(`Except.error`). -/
def anonymizeAllManyE (dtParse : List Char → Option Int)
    (phones : List Char → List Repl)
    (personE : List Char → Except Unit (List Repl))
    (texts : List (List Char)) : Except Unit (List (List Char)) := do
  let regexB := texts.map (gatherRegex dtParse)
  let phoneB := texts.map phones
  let docs ← texts.mapM personE
  return (texts.zip (regexB.zip (phoneB.zip docs))).map
    (fun p => applyRepls p.1 (p.2.1 ++ p.2.2.1 ++ p.2.2.2))

/-! ### Helper lemmas -/

/-- Membership in an insertion step. -/
theorem mem_insortRepl {x r : Repl} {l : List Repl} :
    x ∈ insortRepl r l ↔ x = r ∨ x ∈ l := by
  induction l with
  | nil => simp [insortRepl]
  | cons y ys ih =>
    by_cases h : r.start < y.start
    · simp [insortRepl, if_pos h, List.mem_cons]
    · simp only [insortRepl, if_neg h, List.mem_cons, ih]
      tauto

/-- An insertion step preserves sortedness by start offset. -/
theorem sorted_insortRepl {l : List Repl} (r : Repl)
    (h : List.Sorted (fun x y : Repl => x.start ≤ y.start) l) :
    List.Sorted (fun x y : Repl => x.start ≤ y.start) (insortRepl r l) := by
  induction l with
  | nil => simp [insortRepl]
  | cons y ys ih =>
    rw [List.sorted_cons] at h
    obtain ⟨hy, hys⟩ := h
    by_cases hlt : r.start < y.start
    · rw [insortRepl, if_pos hlt, List.sorted_cons]
      constructor
      · intro b hb
        rcases List.mem_cons.1 hb with rfl | hb
        · omega
        · have := hy b hb
          omega
      · rw [List.sorted_cons]
        exact ⟨hy, hys⟩
    · rw [insortRepl, if_neg hlt, List.sorted_cons]
      constructor
      · intro b hb
        rcases mem_insortRepl.1 hb with rfl | hb
        · omega
        · exact hy b hb
      · exact ih hys

/-- The foldl of insertion steps preserves sortedness. -/
theorem sorted_foldl_insort (l : List Repl) :
    ∀ acc : List Repl, List.Sorted (fun x y : Repl => x.start ≤ y.start) acc →
      List.Sorted (fun x y : Repl => x.start ≤ y.start)
        (l.foldl (fun acc r => insortRepl r acc) acc) := by
  induction l with
  | nil => intro acc h; exact h
  | cons r rs ih =>
    intro acc h
    exact ih _ (sorted_insortRepl r h)

/-! ### C1 — overlap resolution -/

/-- C1: candidate spans are stably sorted by start offset ascending
(conjunct 1); the cursor sweep discards every span whose start is
strictly below the cursor (conjunct 2) and otherwise emits the literal
text from the cursor to the span's start followed by its replacement,
advancing the cursor to the span's end (conjunct 3); for two overlapping
candidate spans only the first-starting one survives, whichever order
they were collected in (conjunct 4); on equal starts the span collected
earlier — the higher-priority detector's — wins (conjunct 5);
longest-match-wins and merging never happen (conjuncts 4 and 5 fix the
output independently of the second span's extent). -/
theorem overlap_resolution_first_by_position_then_priority
    (t : List Char) (a b : Repl) :
    (∀ l : List Repl,
      List.Sorted (fun x y : Repl => x.start ≤ y.start) (sortRepls l)) ∧
    (∀ (rs : List Repl) (cur : Nat) (r : Repl), r.start < cur →
      applyGo t (r :: rs) cur = applyGo t rs cur) ∧
    (∀ (rs : List Repl) (cur : Nat) (r : Repl), cur ≤ r.start →
      applyGo t (r :: rs) cur =
        sliceL t cur r.start ++ r.repl ++ applyGo t rs r.stop) ∧
    (a.start < b.start → b.start < a.stop →
      applyRepls t [a, b] = t.take a.start ++ a.repl ++ t.drop a.stop ∧
      applyRepls t [b, a] = t.take a.start ++ a.repl ++ t.drop a.stop) ∧
    (a.start = b.start → a.start < a.stop →
      applyRepls t [a, b] = t.take a.start ++ a.repl ++ t.drop a.stop) := by
  refine ⟨fun l => sorted_foldl_insort l [] (by simp), ?_, ?_, ?_, ?_⟩
  · intro rs cur r h
    rw [applyGo, if_pos h]
  · intro rs cur r h
    rw [applyGo, if_neg (by omega)]
  · intro h1 h2
    have hba : ¬ b.start < a.start := by omega
    have hs1 : sortRepls [a, b] = [a, b] := by
      simp only [sortRepls, List.foldl, insortRepl]
      rw [if_neg hba]
    have hs2 : sortRepls [b, a] = [a, b] := by
      simp only [sortRepls, List.foldl, insortRepl]
      rw [if_pos h1]
    constructor
    · simp [applyRepls, hs1, applyGo, h2, sliceL]
    · simp [applyRepls, hs2, applyGo, h2, sliceL]
  · intro h1 h2
    have hba : ¬ b.start < a.start := by omega
    have hs1 : sortRepls [a, b] = [a, b] := by
      simp only [sortRepls, List.foldl, insortRepl]
      rw [if_neg hba]
    have hb2 : b.start < a.stop := by omega
    simp [applyRepls, hs1, applyGo, hb2, sliceL]

/-- Witness for C1 at the claim's concrete spans `[0,10)` and `[5,15)`
(and a same-start pair), on a 15-character text. -/
theorem overlap_resolution_witness :
    (applyRepls "0123456789ABCDE".toList
        [⟨0, 10, "X".toList⟩, ⟨5, 15, "Y".toList⟩] =
      "0123456789ABCDE".toList.take 0 ++ "X".toList ++
        "0123456789ABCDE".toList.drop 10) ∧
    (applyRepls "0123456789ABCDE".toList
        [⟨5, 15, "Y".toList⟩, ⟨0, 10, "X".toList⟩] =
      "0123456789ABCDE".toList.take 0 ++ "X".toList ++
        "0123456789ABCDE".toList.drop 10) ∧
    (applyRepls "0123456789ABCDE".toList
        [⟨0, 10, "X".toList⟩, ⟨0, 15, "Y".toList⟩] =
      "0123456789ABCDE".toList.take 0 ++ "X".toList ++
        "0123456789ABCDE".toList.drop 10) := by
  have h4 := (overlap_resolution_first_by_position_then_priority
    "0123456789ABCDE".toList ⟨0, 10, "X".toList⟩ ⟨5, 15, "Y".toList⟩).2.2.2.1
    (by decide) (by decide)
  have h5 := (overlap_resolution_first_by_position_then_priority
    "0123456789ABCDE".toList ⟨0, 10, "X".toList⟩ ⟨0, 15, "Y".toList⟩).2.2.2.2
    (by decide) (by decide)
  exact ⟨h4.1, h4.2, h5⟩

/-! ### C9 — out-of-range spans -/

/-- C9: the reconstruction is a total function and, like the Python
slices it is built from, clamps rather than reads out of bounds: a single
span always yields `take start ++ replacement ++ drop end`; when the
span's end reaches past the text nothing after it is emitted, and when
even its start lies past the text the whole text is emitted literally
with the replacement appended — never an out-of-bounds access. -/
theorem apply_total_clamps_out_of_range_spans
    (t : List Char) (s e : Nat) (r : List Char) :
    (applyRepls t [⟨s, e, r⟩] = t.take s ++ r ++ t.drop e) ∧
    (t.length ≤ e → applyRepls t [⟨s, e, r⟩] = t.take s ++ r) ∧
    (t.length ≤ s → t.length ≤ e → applyRepls t [⟨s, e, r⟩] = t ++ r) := by
  have h1 : applyRepls t [⟨s, e, r⟩] = t.take s ++ r ++ t.drop e := by
    simp [applyRepls, sortRepls, insortRepl, applyGo, sliceL]
  refine ⟨h1, fun he => ?_, fun hs he => ?_⟩
  · rw [h1, List.drop_eq_nil_of_le he, List.append_nil]
  · rw [h1, List.drop_eq_nil_of_le he, List.append_nil,
      List.take_of_length_le hs]

/-- Witness for C9: a 2-character text with a span `[5,9)` entirely past
the end, and one with a span `[1,9)` whose end is past the end. -/
theorem apply_out_of_range_witness :
    applyRepls "ab".toList [⟨5, 9, "R".toList⟩] = "ab".toList ++ "R".toList ∧
    applyRepls "ab".toList [⟨1, 9, "R".toList⟩] =
      "ab".toList.take 1 ++ "R".toList := by
  constructor
  · exact (apply_total_clamps_out_of_range_spans "ab".toList 5 9
      "R".toList).2.2 (by decide) (by decide)
  · exact (apply_total_clamps_out_of_range_spans "ab".toList 1 9
      "R".toList).2.1 (by decide)

/-! ### C2 — batch/single equivalence -/

/-- C2: with identical external-provider outputs per text, the batch
pipeline is exactly the element-wise single-text pipeline: it maps
`anonymize_all` over the inputs, so it has one output per input in input
order, and its `i`-th element is `anonymize_all` of the `i`-th input —
independent of the batch size and of the other elements. -/
theorem anonymize_many_eq_map_anonymize_single
    (dt : List Char → Option Int) (phones person : List Char → List Repl)
    (texts : List (List Char)) :
    anonymizeAllMany dt phones person texts =
      texts.map (anonymizeAll dt phones person) ∧
    (anonymizeAllMany dt phones person texts).length = texts.length ∧
    ∀ i : Nat, (anonymizeAllMany dt phones person texts)[i]? =
      (texts[i]?).map (anonymizeAll dt phones person) := by
  have h : anonymizeAllMany dt phones person texts =
      texts.map (anonymizeAll dt phones person) := by
    induction texts with
    | nil => rfl
    | cons t ts ih =>
      simp only [anonymizeAllMany, List.map_cons, List.zip_cons_cons] at ih ⊢
      rw [ih]
      rfl
  refine ⟨h, ?_, ?_⟩
  · rw [h, List.length_map]
  · intro i
    rw [h, List.getElem?_map]

/-! ### C7 — identity on PII-free input -/

/-- C7: when no detector and no provider produces a span, the pipeline
returns the text itself (conjunct 1); the regex detectors produce zero
spans on empty input (conjunct 2), so empty input with span-free
providers yields empty output (conjunct 3). -/
theorem anonymize_identity_on_pii_free
    (dt : List Char → Option Int) (phones person : List Char → List Repl)
    (t : List Char) :
    (gatherRegex dt t = [] → phones t = [] → person t = [] →
      anonymizeAll dt phones person t = t) ∧
    gatherRegex dt ([] : List Char) = [] ∧
    (phones [] = [] → person [] = [] →
      anonymizeAll dt phones person [] = []) := by
  have hbase : ∀ u, gatherRegex dt u = [] → phones u = [] → person u = [] →
      anonymizeAll dt phones person u = u := by
    intro u h1 h2 h3
    simp [anonymizeAll, h1, h2, h3, applyRepls]
  have hempty : gatherRegex dt ([] : List Char) = [] := rfl
  exact ⟨hbase t, hempty, fun h2 h3 => hbase [] hempty h2 h3⟩

/-- Witness for C7 on the match-free text `zzz` and on the empty text,
with span-free providers. -/
theorem anonymize_identity_witness :
    anonymizeAll (fun _ => none) (fun _ => []) (fun _ => [])
      "zzz".toList = "zzz".toList ∧
    anonymizeAll (fun _ => none) (fun _ => []) (fun _ => []) [] = [] := by
  constructor
  · exact (anonymize_identity_on_pii_free (fun _ => none) (fun _ => [])
      (fun _ => []) "zzz".toList).1 rfl rfl rfl
  · exact (anonymize_identity_on_pii_free (fun _ => none) (fun _ => [])
      (fun _ => []) "zzz".toList).2.2 rfl rfl

/-! ### C3 — fail-closed validators -/

/-- A digit run with no underscores satisfies the continuation
recognizer. -/
theorem udigGo_of_digits {l : List Char} (h : ∀ c ∈ l, c.isDigit = true) :
    udigGo l = true := by
  induction l with
  | nil => rfl
  | cons c rest ih =>
    have hc : c.isDigit = true := h c (by simp)
    have hne : ¬ (c = '_') := by
      intro he
      rw [he] at hc
      exact absurd hc (by decide)
    rw [udigGo.eq_def]
    simp only
    rw [if_neg hne]
    simp [hc, ih (fun d hd => h d (List.mem_cons_of_mem _ hd))]

/-- Python `int` succeeds on every nonempty all-digit string. -/
theorem pyInt_isSome_of_digits {l : List Char} (hne : l ≠ [])
    (h : ∀ c ∈ l, c.isDigit = true) : ∃ n : Int, pyInt l = some n := by
  cases l with
  | nil => exact absurd rfl hne
  | cons c rest =>
    have hc : c.isDigit = true := h c (by simp)
    have hcp : c ≠ '+' := by
      intro he
      rw [he] at hc
      exact absurd hc (by decide)
    have hcm : c ≠ '-' := by
      intro he
      rw [he] at hc
      exact absurd hc (by decide)
    have hu : udig (c :: rest) = true := by
      simp only [udig]
      have hgo : udigGo rest = true :=
        udigGo_of_digits (fun d hd => h d (List.mem_cons_of_mem _ hd))
      simp [hc, hgo]
    refine ⟨digitsVal (c :: rest), ?_⟩
    simp [pyInt, hcp, hcm, hu]

/-- C3 counterexample: the Luhn validator does not treat non-digit input
as invalid — on `abc` it filters the digits away, sums the empty list to
0, and accepts. -/
theorem luhn_accepts_digit_free_input : is_valid_luhn "abc".toList = true := by
  decide

/-- C3 amended: the national-ID validator fails closed (wrong length or
non-digit stripped input yields `some false`) and never raises; the Luhn
validator never raises but ignores non-digit characters instead of
rejecting them — a digit-free string is accepted; the IBAN validator
fails closed on a wrong prefix or wrong length, but raises `ValueError`
(modelled `none`) on a 27-character `FR`-prefixed input containing a
character that survives the letter mapping without being a digit. -/
theorem validators_fail_closed_amended :
    (∀ s : List Char, ∃ b, is_valid_nir s = some b) ∧
    (∀ s : List Char,
      (strip s).length ≠ 15 ∨ pyIsDigitStr (strip s) = false →
      is_valid_nir s = some false) ∧
    (∀ s : List Char, (∀ c ∈ s, pyIsDigitChar c = false) →
      is_valid_luhn s = true) ∧
    (∀ s : List Char,
      ((strip s).map pyUpper).take 2 ≠ ['F', 'R'] ∨
        ((strip s).map pyUpper).length ≠ 27 →
      is_valid_iban s = some false) ∧
    is_valid_iban "FR!!!!!!!!!!!!!!!!!!!!!!!!!".toList = none := by
  refine ⟨?_, ?_, ?_, ?_, by decide⟩
  · intro s
    by_cases h : (strip s).length ≠ 15 ∨ pyIsDigitStr (strip s) = false
    · exact ⟨false, by simp only [is_valid_nir]; rw [if_pos h]⟩
    · push_neg at h
      obtain ⟨hlen, hdig⟩ := h
      have hdig' : pyIsDigitStr (strip s) = true := by
        cases hb : pyIsDigitStr (strip s) with
        | false => exact absurd hb hdig
        | true => rfl
      have hall : ∀ c ∈ strip s, c.isDigit = true := by
        have h2 := hdig'
        simp only [pyIsDigitStr, pyIsDigitChar, Bool.and_eq_true,
          List.all_eq_true] at h2
        intro c hc
        exact h2.2 c hc
      have hk : ∃ k : Int, pyInt (lastN 2 (strip s)) = some k := by
        refine pyInt_isSome_of_digits ?_ ?_
        · have : (lastN 2 (strip s)).length = 2 := by
            simp [lastN, hlen]
          intro hnil
          rw [hnil] at this
          simp at this
        · intro c hc
          exact hall c (List.mem_of_mem_drop hc)
      have hn : ∃ n : Int,
          pyInt ((strip s).take ((strip s).length - 2)) = some n := by
        refine pyInt_isSome_of_digits ?_ ?_
        · have : ((strip s).take ((strip s).length - 2)).length = 13 := by
            simp [hlen]
          intro hnil
          rw [hnil] at this
          simp at this
        · intro c hc
          exact hall c (List.mem_of_mem_take hc)
      obtain ⟨k, hk⟩ := hk
      obtain ⟨n, hn⟩ := hn
      refine ⟨97 - n % 97 == k, ?_⟩
      simp only [is_valid_nir]
      rw [if_neg (by push_neg; exact ⟨hlen, fun hb => by rw [hb] at hdig'; cases hdig'⟩)]
      rw [hk, hn]
  · intro s h
    simp only [is_valid_nir]
    rw [if_pos h]
  · intro s h
    have hf : s.filter pyIsDigitChar = [] :=
      List.filter_eq_nil_iff.2 (fun c hc => by simp [h c hc])
    simp [is_valid_luhn, hf]
  · intro s h
    simp only [is_valid_iban]
    rw [if_pos h]

/-- Witness for C3 (amended): concrete fail-closed and never-raise
instances. -/
theorem validators_fail_closed_witness :
    is_valid_nir "x".toList = some false ∧
    is_valid_luhn "xy".toList = true ∧
    is_valid_iban "xx".toList = some false := by
  refine ⟨?_, ?_, ?_⟩
  · exact validators_fail_closed_amended.2.1 "x".toList (by decide)
  · exact validators_fail_closed_amended.2.2.1 "xy".toList (by decide)
  · exact validators_fail_closed_amended.2.2.2.1 "xx".toList (by decide)

/-! ### C5 — IBAN validation -/

/-- C5: a string is accepted by the IBAN validator iff, after stripping
whitespace/dashes and upper-casing, it starts with `FR`, has exactly 27
characters, and the integer read from the rearrangement (first 4
characters moved to the end, letters mapped `A=10`..`Z=35`) is ≡ 1
mod 97 (conjunct 1); the claim's concrete IBAN is accepted (conjunct 2);
altering any single digit of it (positions 2–26) makes validation fail
(conjunct 3). -/
theorem iban_validator_mod97_iff :
    (∀ s : List Char, is_valid_iban s = some true ↔
      (((strip s).map pyUpper).take 2 = ['F', 'R'] ∧
       ((strip s).map pyUpper).length = 27 ∧
       ∃ n : Int,
         pyInt (ibanToNumeric (((strip s).map pyUpper).drop 4 ++
           ((strip s).map pyUpper).take 4)) = some n ∧ n % 97 = 1)) ∧
    is_valid_iban "FR7630006000011234567890189".toList = some true ∧
    (∀ i : Nat, i < 27 → 2 ≤ i → ∀ d ∈ "0123456789".toList,
      d ≠ "FR7630006000011234567890189".toList.getD i ' ' →
      is_valid_iban ("FR7630006000011234567890189".toList.set i d) =
        some false) := by
  refine ⟨?_, by decide, by decide⟩
  intro s
  by_cases h : ((strip s).map pyUpper).take 2 ≠ ['F', 'R'] ∨
      ((strip s).map pyUpper).length ≠ 27
  · rw [show is_valid_iban s = some false from by
      simp only [is_valid_iban]; rw [if_pos h]]
    constructor
    · intro hc
      exact absurd hc (by simp)
    · rintro ⟨h1, h2, -⟩
      rcases h with h | h
      · exact absurd h1 h
      · exact absurd h2 h
  · push_neg at h
    obtain ⟨h1, h2⟩ := h
    have hun : is_valid_iban s =
        match pyInt (ibanToNumeric (((strip s).map pyUpper).drop 4 ++
          ((strip s).map pyUpper).take 4)) with
        | some n => some (n % 97 == 1)
        | none => none := by
      simp only [is_valid_iban]
      rw [if_neg (by push_neg; exact ⟨h1, h2⟩)]
    cases hpi : pyInt (ibanToNumeric (((strip s).map pyUpper).drop 4 ++
        ((strip s).map pyUpper).take 4)) with
    | none =>
      have hun2 : is_valid_iban s = none := by rw [hun, hpi]
      rw [hun2]
      constructor
      · intro hc
        exact absurd hc (by simp)
      · rintro ⟨-, -, m, hm, -⟩
        exact absurd hm (by simp)
    | some n =>
      have hun2 : is_valid_iban s = some (n % 97 == 1) := by rw [hun, hpi]
      rw [hun2]
      constructor
      · intro hc
        have hbeq : (n % 97 == 1) = true := by injection hc
        exact ⟨h1, h2, n, rfl, by simpa using hbeq⟩
      · rintro ⟨-, -, m, hm, hmod⟩
        have hnm : n = m := by injection hm
        subst hnm
        simp [hmod]

/-- Witness for C5: altering the first check digit (position 2, `7` → `0`)
of the claim's IBAN makes validation fail. -/
theorem iban_validator_witness :
    is_valid_iban ("FR7630006000011234567890189".toList.set 2 '0') =
      some false :=
  iban_validator_mod97_iff.2.2 2 (by decide) (by decide) '0' (by decide)
    (by decide)

/-! ### C6 — Luhn validation and card masking -/

/-- C6: the card validator accepts exactly when the digits-only,
reversed, double-every-second-with-minus-9 sum is divisible by 10
(conjunct 1); the claim's valid card is accepted (conjunct 2) and masks
to 12 stars plus its last 4 digits (conjunct 3); the off-by-one card is
rejected (conjunct 4); through the detector registry the valid card
yields exactly the masked card span while the invalid one yields no span
at all — it is not masked by the card rule (conjuncts 5 and 6). -/
theorem luhn_card_validation_and_mask :
    (∀ s : List Char, is_valid_luhn s = true ↔
      ((((s.filter pyIsDigitChar).map (fun c => c.toNat - 48)).reverse.enum.foldl
        (fun acc p => acc + luhnStep p.1 p.2) 0) % 10 = 0)) ∧
    is_valid_luhn "4539148803436467".toList = true ∧
    mask_card "4539148803436467".toList = "************6467".toList ∧
    is_valid_luhn "4539148803436468".toList = false ∧
    (∀ dt : List Char → Option Int,
      gatherRegex dt "4539148803436467".toList =
        [⟨0, 16, "************6467".toList⟩]) ∧
    (∀ dt : List Char → Option Int,
      gatherRegex dt "4539148803436468".toList = []) := by
  refine ⟨?_, by decide, by decide, by decide, fun _ => rfl, fun _ => rfl⟩
  intro s
  simp [is_valid_luhn]

/-! ### C8 — email masking -/

/-- Splitting at the first `@`: the local part is recovered exactly when
it contains no `@`. -/
theorem takeWhile_until_at {l d : List Char} (h : '@' ∉ l) :
    (l ++ '@' :: d).takeWhile (fun c => c ≠ '@') = l := by
  induction l with
  | nil => simp [List.takeWhile]
  | cons c rest ih =>
    have hc : c ≠ '@' := by
      intro he
      exact h (he ▸ List.mem_cons_self c rest)
    have ih2 := ih (fun hm => h (List.mem_cons_of_mem _ hm))
    simp only [List.cons_append, List.takeWhile_cons]
    simp only [decide_not] at ih2 ⊢
    simp [hc, ih2]

/-- C8: for a matched email `local@domain` (the local part never contains
`@`), a local part of length ≥ 3 keeps its first and last character with
`*` for every interior character, and the domain is unchanged (conjunct
1); a local part of length ≤ 2 is fully masked (conjunct 2); the claim's
concrete examples (conjuncts 3 and 4), also through the whole pipeline
(conjuncts 5 and 6). -/
theorem email_mask_first_last_domain (l d : List Char) :
    ('@' ∉ l → 3 ≤ l.length →
      mask_email (l ++ '@' :: d) =
        l.take 1 ++ List.replicate (l.length - 2) '*' ++ lastN 1 l ++
          '@' :: d) ∧
    ('@' ∉ l → l.length ≤ 2 →
      mask_email (l ++ '@' :: d) =
        List.replicate l.length '*' ++ '@' :: d) ∧
    mask_email "jo@x.com".toList = "**@x.com".toList ∧
    mask_email "john.doe@example.com".toList =
      "j******e@example.com".toList ∧
    (∀ dt : List Char → Option Int,
      anonymizeAll dt (fun _ => []) (fun _ => []) "jo@x.com".toList =
        "**@x.com".toList) ∧
    (∀ dt : List Char → Option Int,
      anonymizeAll dt (fun _ => []) (fun _ => [])
        "john.doe@example.com".toList = "j******e@example.com".toList) := by
  refine ⟨?_, ?_, by decide, by decide, fun _ => rfl, fun _ => rfl⟩
  · intro h hlen
    simp only [mask_email, takeWhile_until_at h, List.drop_left]
    rw [if_neg (by omega)]
    simp [List.append_assoc]
  · intro h hlen
    simp only [mask_email, takeWhile_until_at h, List.drop_left]
    rw [if_pos hlen]
    simp

/-- Witness for C8 on the local parts `abc` (length 3) and `jo`
(length 2). -/
theorem email_mask_witness :
    mask_email ("abc".toList ++ '@' :: "x.co".toList) =
      "abc".toList.take 1 ++ List.replicate ("abc".toList.length - 2) '*' ++
        lastN 1 "abc".toList ++ '@' :: "x.co".toList ∧
    mask_email ("jo".toList ++ '@' :: "x.com".toList) =
      List.replicate "jo".toList.length '*' ++ '@' :: "x.com".toList := by
  constructor
  · exact (email_mask_first_last_domain "abc".toList "x.co".toList).1
      (by decide) (by decide)
  · exact (email_mask_first_last_domain "jo".toList "x.com".toList).2.1
      (by decide) (by decide)

/-! ### C4 — batch failure behaviour -/

/-- A `mapM` over `Except` fails whenever the function fails on any
element of the list. -/
theorem mapM_error_of_mem {personE : List Char → Except Unit (List Repl)} :
    ∀ texts : List (List Char), (∃ t ∈ texts, personE t = .error ()) →
      texts.mapM personE = .error () := by
  intro texts
  induction texts with
  | nil =>
    rintro ⟨t, ht, -⟩
    cases ht
  | cons x xs ih =>
    rintro ⟨t, ht, herr⟩
    rw [List.mapM_cons]
    rcases List.mem_cons.1 ht with rfl | hmem
    · rw [herr]
      rfl
    · cases hx : personE x with
      | error e =>
        cases e
        rfl
      | ok v =>
        rw [ih ⟨t, hmem, herr⟩]
        rfl

/-- A `mapM` of a never-failing function is the plain map. -/
theorem mapM_ok_of_total {person : List Char → List Repl} :
    ∀ texts : List (List Char),
      texts.mapM (fun t => (Except.ok (person t) : Except Unit (List Repl))) =
        .ok (texts.map person) := by
  intro texts
  induction texts with
  | nil => rfl
  | cons x xs ih =>
    rw [List.mapM_cons, ih]
    rfl

/-- C4 counterexample: a batch of two documents where the entity provider
fails only on the second; the whole batch call fails, so the first
document — whose provider call succeeded — receives no result either,
contrary to the claimed isolation. -/
theorem batch_provider_failure_aborts_batch :
    anonymizeAllManyE (fun _ => none) (fun _ => [])
      (fun t => if t = "b".toList then .error () else .ok [])
      ["a".toList, "b".toList] = .error () := by
  rfl

/-- C4 amended: `anonymize_all_many` contains no exception handler, so if
the entity-provider call fails for any document of the batch the failure
propagates and the whole batch call fails, returning no result for any
document (conjunct 1); only with a never-failing provider does the batch
behave as the pure pipeline (conjunct 2).  There is no per-document
degradation to empty PERSON spans. -/
theorem batch_failure_propagates_amended :
    (∀ (dt : List Char → Option Int) (phones : List Char → List Repl)
       (personE : List Char → Except Unit (List Repl))
       (texts : List (List Char)),
      (∃ t ∈ texts, personE t = .error ()) →
      anonymizeAllManyE dt phones personE texts = .error ()) ∧
    (∀ (dt : List Char → Option Int) (phones person : List Char → List Repl)
       (texts : List (List Char)),
      anonymizeAllManyE dt phones (fun t => .ok (person t)) texts =
        .ok (anonymizeAllMany dt phones person texts)) := by
  constructor
  · intro dt phones personE texts hex
    simp only [anonymizeAllManyE]
    rw [mapM_error_of_mem texts hex]
    rfl
  · intro dt phones person texts
    simp only [anonymizeAllManyE, anonymizeAllMany]
    rw [mapM_ok_of_total texts]
    rfl

/-- Witness for C4 (amended): a singleton batch with a failing provider
fails; the same batch with an empty-span provider succeeds as the pure
pipeline. -/
theorem batch_failure_witness :
    anonymizeAllManyE (fun _ => none) (fun _ => []) (fun _ => .error ())
      ["x".toList] = .error () ∧
    anonymizeAllManyE (fun _ => none) (fun _ => []) (fun _ => .ok [])
      ["x".toList] =
      .ok (anonymizeAllMany (fun _ => none) (fun _ => []) (fun _ => [])
        ["x".toList]) := by
  constructor
  · exact batch_failure_propagates_amended.1 (fun _ => none) (fun _ => [])
      (fun _ => .error ()) ["x".toList] ⟨"x".toList, by simp, rfl⟩
  · exact batch_failure_propagates_amended.2 (fun _ => none) (fun _ => [])
      (fun _ => []) ["x".toList]

/-! ### C10 — cross-source tie-break on equal starts -/

/-- C10: candidate spans are appended in the order regex rules, then
phone spans, then person spans, and the sort by start is stable, so
same-start spans keep their append order: when a regex span shares its
start with a phone span and a person span, the regex span is applied
(conjunct 1), and with no regex span a phone span beats a same-start
person span (conjunct 2). -/
theorem cross_source_same_start_tie_break
    (dt : List Char → Option Int) (phones person : List Char → List Repl)
    (t : List Char) (a b c : Repl) :
    (gatherRegex dt t = [a] → phones t = [b] → person t = [c] →
      b.start = a.start → c.start = a.start → a.start < a.stop →
      anonymizeAll dt phones person t =
        t.take a.start ++ a.repl ++ t.drop a.stop) ∧
    (gatherRegex dt t = [] → phones t = [b] → person t = [c] →
      c.start = b.start → b.start < b.stop →
      anonymizeAll dt phones person t =
        t.take b.start ++ b.repl ++ t.drop b.stop) := by
  constructor
  · intro h1 h2 h3 hb hc hlt
    have s1 : insortRepl b [a] = [a, b] := by
      rw [insortRepl, if_neg (by omega : ¬ b.start < a.start), insortRepl]
    have s2 : insortRepl c [a, b] = [a, b, c] := by
      rw [insortRepl, if_neg (by omega : ¬ c.start < a.start), insortRepl,
        if_neg (by omega : ¬ c.start < b.start), insortRepl]
    have hsr : sortRepls [a, b, c] = [a, b, c] := by
      simp only [sortRepls, List.foldl]
      rw [show insortRepl a [] = [a] from rfl, s1, s2]
    have hb2 : b.start < a.stop := by omega
    have hc2 : c.start < a.stop := by omega
    simp only [anonymizeAll, h1, h2, h3, List.cons_append, List.nil_append]
    simp [applyRepls, hsr, applyGo, hb2, hc2, sliceL]
  · intro h1 h2 h3 hc hlt
    have s1 : insortRepl c [b] = [b, c] := by
      rw [insortRepl, if_neg (by omega : ¬ c.start < b.start), insortRepl]
    have hsr : sortRepls [b, c] = [b, c] := by
      simp only [sortRepls, List.foldl]
      rw [show insortRepl b [] = [b] from rfl, s1]
    have hc2 : c.start < b.stop := by omega
    simp only [anonymizeAll, h1, h2, h3, List.cons_append, List.nil_append]
    simp [applyRepls, hsr, applyGo, hc2, sliceL]

/-- Witness for C10: the plate detector's span on `AA-123-AA` beats
same-start phone and person spans; on the match-free text `zzz` a phone
span beats a same-start person span. -/
theorem cross_source_tie_break_witness :
    anonymizeAll (fun _ => none) (fun _ => [⟨0, 2, "PH".toList⟩])
      (fun _ => [⟨0, 3, "PE".toList⟩]) "AA-123-AA".toList =
      "AA-123-AA".toList.take 0 ++ "IMMATRICULATION".toList ++
        "AA-123-AA".toList.drop 9 ∧
    anonymizeAll (fun _ => none) (fun _ => [⟨1, 2, "P2".toList⟩])
      (fun _ => [⟨1, 3, "Q2".toList⟩]) "zzz".toList =
      "zzz".toList.take 1 ++ "P2".toList ++ "zzz".toList.drop 2 := by
  constructor
  · exact (cross_source_same_start_tie_break (fun _ => none)
      (fun _ => [⟨0, 2, "PH".toList⟩]) (fun _ => [⟨0, 3, "PE".toList⟩])
      "AA-123-AA".toList ⟨0, 9, "IMMATRICULATION".toList⟩
      ⟨0, 2, "PH".toList⟩ ⟨0, 3, "PE".toList⟩).1 rfl rfl rfl rfl rfl
      (by decide)
  · exact (cross_source_same_start_tie_break (fun _ => none)
      (fun _ => [⟨1, 2, "P2".toList⟩]) (fun _ => [⟨1, 3, "Q2".toList⟩])
      "zzz".toList ⟨0, 0, []⟩ ⟨1, 2, "P2".toList⟩ ⟨1, 3, "Q2".toList⟩).2
      rfl rfl rfl rfl (by decide)
